import Mathlib

/-!
# Verification of the `vault` program (programs/vault/src/lib.rs)

Shallow embedding of the Anchor-based Solana vault program.  Addresses,
owner identities and lamport amounts are modelled as `Nat` (lamport values
are u64 in the source; overflow checks appear explicitly as `< 2 ^ 64`).

The on-chain world is a `Chain`: a lamport balance per address plus an
optional `VaultState` record per address.  Each instruction is a function
`Chain → ... → Except VaultError Chain`; returning `.error e` models the
transaction aborting with no state committed (Solana transactions are
atomic: a failed instruction commits nothing).

Error-name mapping from the runtime/Anchor errors to the spec taxonomy:
`AccountNotInitialized` (state account missing) ↦ `VaultNotFound`,
`ConstraintSeeds` (seeds/bump check failed) ↦ `BumpMismatch`,
account-already-in-use on `init` ↦ `AlreadyInitialized`,
system-program insufficient lamports ↦ `InsufficientFunds`,
checked-add failure on lamports ↦ `ArithmeticOverflow`.
-/

namespace VaultModel

/-- Persisted record, one per owner (source: `struct VaultState`).
Both fields are `u8` in the source; we carry them as `Nat`. -/
structure VaultState where
  vault_bump : Nat
  state_bump : Nat
deriving DecidableEq

/-- Size constant `VaultState::INIT_SPACE = 8 + 1 * 2` (discriminator plus two bump bytes). -/
def INIT_SPACE : Nat := 8 + 1 * 2

/-- Errors of the operations, named as in the spec's taxonomy (§7). -/
inductive VaultError where
  | AlreadyInitialized
  | VaultNotFound
  | BumpMismatch
  | InsufficientFunds
  | ArithmeticOverflow
  | DerivationExhausted
deriving DecidableEq

/-- The on-chain world: lamport balance and optional `VaultState` record
per address. -/
structure Chain where
  lamports : Nat → Nat
  records : Nat → Option VaultState

/-- Pointwise update of a map keyed by addresses. -/
def fupdate {α : Type} (f : Nat → α) (k : Nat) (v : α) : Nat → α :=
  fun a => if a = k then v else f a

/-- Seed tag `b"state"` of the state-record namespace. -/
def stateTag : Nat := 0

/-- Seed tag `b"vault"` of the vault namespace. -/
def vaultTag : Nat := 1

/-- Modelled from the spec (§4.1): the collision-resistant hash taking
`(namespace_tag, seed_material, bump)` to an address.  The real SHA-256
based `Pubkey::create_program_address` hash is external to the repository;
we model collision resistance as outright injectivity via `Nat.pair`. -/
def pdaHash (tag seed bump : Nat) : Nat :=
  Nat.pair tag (Nat.pair seed bump)

/-- Modelled from the spec (§4.1): `create_program_address` with an explicit
bump.  `onCurve` is the external predicate "this address has a corresponding
private key"; derivation fails (and Anchor reports a seeds-constraint error)
when the hash lands on the curve. -/
def createPda (onCurve : Nat → Bool) (tag seed bump : Nat) : Option Nat :=
  if onCurve (pdaHash tag seed bump) then none else some (pdaHash tag seed bump)

/-- Modelled from the spec (§4.1): bump search of `find_program_address`,
trying bump values downward from `fuel` and returning the first off-curve
derivation. -/
def findPdaAux (onCurve : Nat → Bool) (tag seed : Nat) : Nat → Option (Nat × Nat)
  | 0 =>
    if onCurve (pdaHash tag seed 0) then none else some (pdaHash tag seed 0, 0)
  | b + 1 =>
    if onCurve (pdaHash tag seed (b + 1)) then findPdaAux onCurve tag seed b
    else some (pdaHash tag seed (b + 1), b + 1)

/-- Modelled from the spec (§4.1): `find_program_address`, searching bumps
from 255 downward; exhaustion signals `DerivationExhausted`. -/
def findPda (onCurve : Nat → Bool) (tag seed : Nat) : Option (Nat × Nat) :=
  findPdaAux onCurve tag seed 255

/-- Debit `amt` lamports from address `a` (Nat subtraction; callers check
sufficiency first, as the system program does). -/
def debit (ch : Chain) (a amt : Nat) : Chain :=
  { ch with lamports := fupdate ch.lamports a (ch.lamports a - amt) }

/-- Credit `amt` lamports to address `a`. -/
def credit (ch : Chain) (a amt : Nat) : Chain :=
  { ch with lamports := fupdate ch.lamports a (ch.lamports a + amt) }

/-- Modelled from the spec (§6): the external balance-transfer primitive
(system program `transfer`): fails with `InsufficientFunds` when the source
balance is below `amt`, and checks the destination for u64 overflow before
crediting (§4.3: "arithmetic overflow on the destination (must check before
adding)"). -/
def sysTransfer (ch : Chain) (src dst amt : Nat) : Except VaultError Chain :=
  if ch.lamports src < amt then .error .InsufficientFunds
  else if 2 ^ 64 ≤ (debit ch src amt).lamports dst + amt then .error .ArithmeticOverflow
  else .ok (credit (debit ch src amt) dst amt)

/-- Account validation of the `Payment` accounts struct (source lines
117–133), as generated by Anchor:
* `vault_state` must deserialize to an existing `VaultState` record
  (else `AccountNotInitialized`, spec name `VaultNotFound`);
* `vault_state` must sit at `create_program_address([b"state", user],
  vault_state.state_bump)` (else `ConstraintSeeds`, spec `BumpMismatch`);
* `vault` must sit at `create_program_address([b"vault", vault_state.key()],
  vault_state.vault_bump)` (else `ConstraintSeeds`, spec `BumpMismatch`). -/
def paymentValidate (onCurve : Nat → Bool) (ch : Chain)
    (user stateAcc vaultAcc : Nat) : Except VaultError VaultState :=
  match ch.records stateAcc with
  | none => .error .VaultNotFound
  | some vs =>
    if createPda onCurve stateTag user vs.state_bump ≠ some stateAcc then
      .error .BumpMismatch
    else if createPda onCurve vaultTag stateAcc vs.vault_bump ≠ some vaultAcc then
      .error .BumpMismatch
    else .ok vs

/-- Handler `Payment::deposit` (source lines 136–145): after account validation,
transfer `amount` lamports from the signing user to the vault account. -/
def deposit (onCurve : Nat → Bool) (ch : Chain)
    (user stateAcc vaultAcc amount : Nat) : Except VaultError Chain :=
  match paymentValidate onCurve ch user stateAcc vaultAcc with
  | .error e => .error e
  | .ok _ => sysTransfer ch user vaultAcc amount

/-- Handler `Payment::withdraw` (source lines 147–177): after account validation,
transfer `amount` lamports from the vault to the user, authorized by the
PDA signer seeds `[b"vault", vault_state.key(), vault_bump]`; the runtime
re-derives the address from those seeds and requires it to be the source
account (always true once validation passed; the unreachable failure is
reported as an authorization failure). -/
def withdraw (onCurve : Nat → Bool) (ch : Chain)
    (user stateAcc vaultAcc amount : Nat) : Except VaultError Chain :=
  match paymentValidate onCurve ch user stateAcc vaultAcc with
  | .error e => .error e
  | .ok vs =>
    if createPda onCurve vaultTag stateAcc vs.vault_bump ≠ some vaultAcc then
      .error .BumpMismatch
    else sysTransfer ch vaultAcc user amount

/-- Handler `Close::close` together with the `Close` accounts struct (source lines
180–216): validate the same seeds/bump constraints (the `Close` struct
declares `vault` before `vault_state`, so the vault constraint is listed
first; the state account must exist before anything else), transfer the
**entire** vault lamport balance `self.vault.lamports()` to the user under
the PDA signer seeds, then Anchor's `close = user` constraint moves the
record's rent lamports to the user, zeroes the record account and deletes
the record (its `checked_add` on the destination can overflow). -/
def closeOp (onCurve : Nat → Bool) (ch : Chain)
    (user stateAcc vaultAcc : Nat) : Except VaultError Chain :=
  match ch.records stateAcc with
  | none => .error .VaultNotFound
  | some vs =>
    if createPda onCurve vaultTag stateAcc vs.vault_bump ≠ some vaultAcc then
      .error .BumpMismatch
    else if createPda onCurve stateTag user vs.state_bump ≠ some stateAcc then
      .error .BumpMismatch
    else
      match sysTransfer ch vaultAcc user (ch.lamports vaultAcc) with
      | .error e => .error e
      | .ok ch1 =>
        if 2 ^ 64 ≤ ch1.lamports user + ch1.lamports stateAcc then
          .error .ArithmeticOverflow
        else
          .ok { lamports :=
                  fupdate
                    (fupdate ch1.lamports user
                      (ch1.lamports user + ch1.lamports stateAcc))
                    stateAcc 0,
                records := fupdate ch1.records stateAcc none }

/-- Handler `Initialize::initialize` together with the `Initialize` accounts struct
(source lines 47–115), as generated by Anchor:
* `vault_state` must sit at the canonical `find_program_address([b"state",
  user])` (else `ConstraintSeeds`); `init` then creates it: it must not
  already exist (spec `AlreadyInitialized`), the payer `user` funds it up to
  the rent-exempt minimum for `INIT_SPACE` bytes, and a zeroed record
  appears;
* `vault` must sit at the canonical `find_program_address([b"vault",
  vault_state.key()])`;
* the handler transfers `Rent::minimum_balance(vault.data_len())` — the
  vault is a dataless `SystemAccount`, so `rentMin 0` — from user to vault,
  then writes `vault_bump`/`state_bump` from `ctx.bumps`.
`rentMin` is the external `Rent::minimum_balance` function.
(The source handler is named `initialize`; that identifier is reserved in
this development, so the model uses `initOp`.) -/
def initOp (onCurve : Nat → Bool) (rentMin : Nat → Nat) (ch : Chain)
    (user stateAcc vaultAcc : Nat) : Except VaultError Chain :=
  match findPda onCurve stateTag user with
  | none => .error .DerivationExhausted
  | some (sa, sb) =>
    if sa ≠ stateAcc then .error .BumpMismatch
    else if (ch.records stateAcc).isSome then .error .AlreadyInitialized
    else
      match sysTransfer ch user stateAcc (rentMin INIT_SPACE - ch.lamports stateAcc) with
      | .error e => .error e
      | .ok ch1 =>
        match findPda onCurve vaultTag stateAcc with
        | none => .error .DerivationExhausted
        | some (va, vb) =>
          if va ≠ vaultAcc then .error .BumpMismatch
          else
            match sysTransfer
                { ch1 with records := fupdate ch1.records stateAcc (some ⟨0, 0⟩) }
                user vaultAcc (rentMin 0) with
            | .error e => .error e
            | .ok ch2 =>
              .ok { ch2 with
                      records := fupdate ch2.records stateAcc (some ⟨vb, sb⟩) }

/-- The chain a transaction leaves behind: the new chain on success, the
unchanged chain on failure (failed transactions commit nothing). -/
def applyResult (ch : Chain) : Except VaultError Chain → Chain
  | .ok ch1 => ch1
  | .error _ => ch

/-- Predicate `untouched ch sV vV r` says the transaction result `r` left owner V's
accounts alone: the record stored at V's state address `sV`, the rent
lamports held at `sV`, and the lamports of V's vault address `vV` are all
as they were in `ch`. -/
def untouched (ch : Chain) (sV vV : Nat) (r : Except VaultError Chain) : Prop :=
  (applyResult ch r).records sV = ch.records sV ∧
  (applyResult ch r).lamports sV = ch.lamports sV ∧
  (applyResult ch r).lamports vV = ch.lamports vV

/-! ## Concrete evaluation fixtures

A fully concrete world used to evaluate the operations on sample inputs:
no address is on the curve, rent minimum is `100 + size`, owner `7` holds a
vault with 600 lamports, and owner `8` is a second, independent owner. -/

/-- Fixture curve predicate: no address has a private key. -/
def ocW : Nat → Bool := fun _ => false

/-- Fixture curve predicate for isolation tests: exactly the identities `7`
and `8` are on the curve (they are wallet keys with private keys). -/
def ocW2 : Nat → Bool := fun a => a == 7 || a == 8

/-- Fixture rent function: `100 + size` lamports keep `size` bytes alive. -/
def rmW : Nat → Nat := fun n => 100 + n

/-- Canonical state address of owner `7` under `ocW2` (bump 255). -/
def saW : Nat := pdaHash stateTag 7 255

/-- Canonical vault address of owner `7` under `ocW2` (bump 255). -/
def vaW : Nat := pdaHash vaultTag saW 255

/-- The record of owner `7` in the fixture world. -/
def vsW : VaultState := ⟨255, 255⟩

/-- Fixture world: owner `7` is Active with 600 lamports in the vault,
110 rent lamports on the record, and 100000 external lamports. -/
def chW : Chain :=
  { lamports := fun a =>
      if a = 7 then 100000 else if a = vaW then 600 else if a = saW then 110 else 0,
    records := fun a => if a = saW then some vsW else none }

/-- Fixture world before any Initialize: no records, owner `7` funded. -/
def chW0 : Chain :=
  { lamports := fun a => if a = 7 then 100000 else 0,
    records := fun _ => none }

/-- Fixture world at the brink of u64 overflow: owner `7` holds almost the
whole u64 range externally, the vault holds 600. -/
def chBig : Chain :=
  { lamports := fun a =>
      if a = 7 then 2 ^ 64 - 1 else if a = vaW then 600 else if a = saW then 110 else 0,
    records := fun a => if a = saW then some vsW else none }

/-- Canonical state address of the second owner `8` under `ocW2`. -/
def sV8 : Nat := pdaHash stateTag 8 255

/-- Canonical vault address of the second owner `8` under `ocW2`. -/
def vV8 : Nat := pdaHash vaultTag sV8 255

/-! ## Basic lemmas about the map, the derivation engine and transfers -/

@[simp]
theorem fupdate_self {α : Type} (f : Nat → α) (k : Nat) (v : α) :
    fupdate f k v k = v := by
  simp [fupdate]

theorem fupdate_of_ne {α : Type} (f : Nat → α) (k : Nat) (v : α) {a : Nat}
    (h : a ≠ k) : fupdate f k v a = f a := by
  simp [fupdate, h]

theorem pdaHash_inj {t s b t' s' b' : Nat} :
    pdaHash t s b = pdaHash t' s' b' ↔ t = t' ∧ s = s' ∧ b = b' := by
  simp [pdaHash, Nat.pair_eq_pair, and_assoc]

theorem findPdaAux_spec (onCurve : Nat → Bool) (tag seed : Nat) :
    ∀ n a b, findPdaAux onCurve tag seed n = some (a, b) →
      a = pdaHash tag seed b ∧ onCurve a = false := by
  intro n
  induction n with
  | zero =>
    intro a b h
    unfold findPdaAux at h
    split at h
    · exact Option.noConfusion h
    · next hc =>
      simp only [Option.some.injEq, Prod.mk.injEq] at h
      obtain ⟨ha, hb⟩ := h
      subst ha; subst hb
      exact ⟨rfl, by simpa using hc⟩
  | succ m ih =>
    intro a b h
    unfold findPdaAux at h
    split at h
    · exact ih a b h
    · next hc =>
      simp only [Option.some.injEq, Prod.mk.injEq] at h
      obtain ⟨ha, hb⟩ := h
      subst ha; subst hb
      exact ⟨rfl, by simpa using hc⟩

theorem findPda_spec (onCurve : Nat → Bool) (tag seed a b : Nat)
    (h : findPda onCurve tag seed = some (a, b)) :
    a = pdaHash tag seed b ∧ onCurve a = false :=
  findPdaAux_spec onCurve tag seed 255 a b h

theorem createPda_spec (onCurve : Nat → Bool) (tag seed bump a : Nat)
    (h : createPda onCurve tag seed bump = some a) :
    a = pdaHash tag seed bump ∧ onCurve a = false := by
  unfold createPda at h
  split at h
  · exact Option.noConfusion h
  · next hc =>
    simp only [Option.some.injEq] at h
    subst h
    exact ⟨rfl, by simpa using hc⟩

@[simp]
theorem debit_lamports (ch : Chain) (a amt x : Nat) :
    (debit ch a amt).lamports x =
      if x = a then ch.lamports a - amt else ch.lamports x := by
  simp [debit, fupdate]

@[simp]
theorem credit_lamports (ch : Chain) (a amt x : Nat) :
    (credit ch a amt).lamports x =
      if x = a then ch.lamports a + amt else ch.lamports x := by
  simp [credit, fupdate]

@[simp]
theorem debit_records (ch : Chain) (a amt : Nat) :
    (debit ch a amt).records = ch.records := rfl

@[simp]
theorem credit_records (ch : Chain) (a amt : Nat) :
    (credit ch a amt).records = ch.records := rfl

theorem sysTransfer_eq_ok (ch : Chain) (src dst amt : Nat)
    (h1 : amt ≤ ch.lamports src)
    (h2 : (debit ch src amt).lamports dst + amt < 2 ^ 64) :
    sysTransfer ch src dst amt = .ok (credit (debit ch src amt) dst amt) := by
  unfold sysTransfer
  rw [if_neg (by omega), if_neg (by omega)]

theorem sysTransfer_inv (ch : Chain) (src dst amt : Nat) (ch1 : Chain)
    (h : sysTransfer ch src dst amt = .ok ch1) :
    ch1 = credit (debit ch src amt) dst amt ∧ amt ≤ ch.lamports src := by
  unfold sysTransfer at h
  split at h
  · exact Except.noConfusion h
  · split at h
    · exact Except.noConfusion h
    · next hlt _ =>
      simp only [Except.ok.injEq] at h
      exact ⟨h.symm, by omega⟩

theorem sysTransfer_records (ch : Chain) (src dst amt : Nat) (ch1 : Chain)
    (h : sysTransfer ch src dst amt = .ok ch1) : ch1.records = ch.records := by
  obtain ⟨rfl, -⟩ := sysTransfer_inv ch src dst amt ch1 h
  rfl

theorem paymentValidate_eq_ok (onCurve : Nat → Bool) (ch : Chain)
    (user stateAcc vaultAcc : Nat) (vs : VaultState)
    (hrec : ch.records stateAcc = some vs)
    (hs : createPda onCurve stateTag user vs.state_bump = some stateAcc)
    (hv : createPda onCurve vaultTag stateAcc vs.vault_bump = some vaultAcc) :
    paymentValidate onCurve ch user stateAcc vaultAcc = .ok vs := by
  unfold paymentValidate
  rw [hrec]
  simp [hs, hv]

theorem paymentValidate_inv (onCurve : Nat → Bool) (ch : Chain)
    (user stateAcc vaultAcc : Nat) (vs : VaultState)
    (h : paymentValidate onCurve ch user stateAcc vaultAcc = .ok vs) :
    ch.records stateAcc = some vs ∧
    createPda onCurve stateTag user vs.state_bump = some stateAcc ∧
    createPda onCurve vaultTag stateAcc vs.vault_bump = some vaultAcc := by
  unfold paymentValidate at h
  split at h
  · exact Except.noConfusion h
  · next vs' hrec =>
    split at h
    · exact Except.noConfusion h
    · split at h
      · exact Except.noConfusion h
      · next hs hv =>
        simp only [Except.ok.injEq] at h
        subst h
        exact ⟨hrec, not_ne_iff.mp hs, not_ne_iff.mp hv⟩

theorem deposit_ok_inv (onCurve : Nat → Bool) (ch : Chain)
    (user stateAcc vaultAcc amount : Nat) (ch1 : Chain)
    (h : deposit onCurve ch user stateAcc vaultAcc amount = .ok ch1) :
    ∃ vs, paymentValidate onCurve ch user stateAcc vaultAcc = .ok vs ∧
      sysTransfer ch user vaultAcc amount = .ok ch1 := by
  unfold deposit at h
  split at h
  · exact Except.noConfusion h
  · next vs hval => exact ⟨vs, hval, h⟩

theorem withdraw_ok_inv (onCurve : Nat → Bool) (ch : Chain)
    (user stateAcc vaultAcc amount : Nat) (ch1 : Chain)
    (h : withdraw onCurve ch user stateAcc vaultAcc amount = .ok ch1) :
    ∃ vs, paymentValidate onCurve ch user stateAcc vaultAcc = .ok vs ∧
      sysTransfer ch vaultAcc user amount = .ok ch1 := by
  unfold withdraw at h
  split at h
  · exact Except.noConfusion h
  · next vs hval =>
    split at h
    · exact Except.noConfusion h
    · exact ⟨vs, hval, h⟩

theorem closeOp_ok_inv (onCurve : Nat → Bool) (ch : Chain)
    (user stateAcc vaultAcc : Nat) (ch1 : Chain)
    (h : closeOp onCurve ch user stateAcc vaultAcc = .ok ch1) :
    ∃ vs chmid,
      ch.records stateAcc = some vs ∧
      createPda onCurve vaultTag stateAcc vs.vault_bump = some vaultAcc ∧
      createPda onCurve stateTag user vs.state_bump = some stateAcc ∧
      sysTransfer ch vaultAcc user (ch.lamports vaultAcc) = .ok chmid ∧
      ch1.lamports =
        fupdate
          (fupdate chmid.lamports user
            (chmid.lamports user + chmid.lamports stateAcc))
          stateAcc 0 ∧
      ch1.records = fupdate chmid.records stateAcc none := by
  unfold closeOp at h
  split at h
  · exact Except.noConfusion h
  · next vs hrec =>
    split at h
    · exact Except.noConfusion h
    · next hv =>
      split at h
      · exact Except.noConfusion h
      · next hs =>
        split at h
        · exact Except.noConfusion h
        · next chmid hmid =>
          split at h
          · exact Except.noConfusion h
          · simp only [Except.ok.injEq] at h
            subst h
            exact ⟨vs, chmid, hrec, not_ne_iff.mp hv, not_ne_iff.mp hs,
              hmid, rfl, rfl⟩

theorem initOp_ok_inv (onCurve : Nat → Bool) (rentMin : Nat → Nat) (ch : Chain)
    (user stateAcc vaultAcc : Nat) (ch1 : Chain)
    (h : initOp onCurve rentMin ch user stateAcc vaultAcc = .ok ch1) :
    ∃ sb vb chmid ch2,
      findPda onCurve stateTag user = some (stateAcc, sb) ∧
      findPda onCurve vaultTag stateAcc = some (vaultAcc, vb) ∧
      ch.records stateAcc = none ∧
      sysTransfer ch user stateAcc (rentMin INIT_SPACE - ch.lamports stateAcc)
        = .ok chmid ∧
      sysTransfer
          { chmid with records := fupdate chmid.records stateAcc (some ⟨0, 0⟩) }
          user vaultAcc (rentMin 0) = .ok ch2 ∧
      ch1.lamports = ch2.lamports ∧
      ch1.records = fupdate ch2.records stateAcc (some ⟨vb, sb⟩) := by
  unfold initOp at h
  split at h
  · exact Except.noConfusion h
  · next sa sb hfind =>
    split at h
    · exact Except.noConfusion h
    · next hsa =>
      split at h
      · exact Except.noConfusion h
      · next hsome =>
        split at h
        · exact Except.noConfusion h
        · next chmid hmid =>
          split at h
          · exact Except.noConfusion h
          · next va vb hvfind =>
            split at h
            · exact Except.noConfusion h
            · next hva =>
              split at h
              · exact Except.noConfusion h
              · next ch2 h2 =>
                simp only [Except.ok.injEq] at h
                subst h
                have hsa' : sa = stateAcc := not_ne_iff.mp hsa
                have hva' : va = vaultAcc := not_ne_iff.mp hva
                subst hsa'; subst hva'
                exact ⟨sb, vb, chmid, ch2, hfind, hvfind,
                  Option.not_isSome_iff_eq_none.mp (by simpa using hsome),
                  hmid, h2, rfl, rfl⟩

/-! ## Claim theorems -/

/-- Claim C2: for every operation (Deposit, Withdraw, Close) and every
supplied account set, if the supplied vault account's address does not
equal `derive("vault", stateAddress)` with the stored `vault_bump`, or the
supplied state account's address does not equal `derive("state", owner)`
with the stored `state_bump`, the operation fails with `BumpMismatch`
regardless of whether the amount is valid, and no state changes (a failed
operation commits nothing: `applyResult` keeps the old chain). -/
theorem ops_reject_bump_mismatch (onCurve : Nat → Bool) (ch : Chain)
    (user stateAcc vaultAcc amount : Nat) (vs : VaultState)
    (hrec : ch.records stateAcc = some vs)
    (hbad : createPda onCurve stateTag user vs.state_bump ≠ some stateAcc ∨
            createPda onCurve vaultTag stateAcc vs.vault_bump ≠ some vaultAcc) :
    deposit onCurve ch user stateAcc vaultAcc amount = .error .BumpMismatch ∧
    withdraw onCurve ch user stateAcc vaultAcc amount = .error .BumpMismatch ∧
    closeOp onCurve ch user stateAcc vaultAcc = .error .BumpMismatch ∧
    applyResult ch (deposit onCurve ch user stateAcc vaultAcc amount) = ch ∧
    applyResult ch (withdraw onCurve ch user stateAcc vaultAcc amount) = ch ∧
    applyResult ch (closeOp onCurve ch user stateAcc vaultAcc) = ch := by
  have hpv : paymentValidate onCurve ch user stateAcc vaultAcc
      = .error .BumpMismatch := by
    unfold paymentValidate
    rw [hrec]
    rcases hbad with hb | hb
    · simp [hb]
    · by_cases hs : createPda onCurve stateTag user vs.state_bump = some stateAcc
      · simp [hs, hb]
      · simp [hs]
  have hd : deposit onCurve ch user stateAcc vaultAcc amount
      = .error .BumpMismatch := by
    unfold deposit; rw [hpv]
  have hw : withdraw onCurve ch user stateAcc vaultAcc amount
      = .error .BumpMismatch := by
    unfold withdraw; rw [hpv]
  have hc : closeOp onCurve ch user stateAcc vaultAcc = .error .BumpMismatch := by
    unfold closeOp
    rw [hrec]
    rcases hbad with hb | hb
    · by_cases hv : createPda onCurve vaultTag stateAcc vs.vault_bump
          = some vaultAcc
      · simp [hv, hb]
      · simp [hv]
    · simp [hb]
  exact ⟨hd, hw, hc, by rw [hd]; rfl, by rw [hw]; rfl, by rw [hc]; rfl⟩

/-- Claim C3: the per-owner state machine admits only
`Uninitialized -(Initialize)-> Active`, self-loops on `Active` for
Deposit/Withdraw, and `Active -(Close)-> Uninitialized`: Deposit, Withdraw
and Close attempted while no record exists fail with `VaultNotFound`, and
Initialize attempted while the record exists fails with
`AlreadyInitialized`. -/
theorem vault_state_machine (onCurve : Nat → Bool) (rentMin : Nat → Nat)
    (ch chA : Chain)
    (user stateAcc vaultAcc userA stateAccA vaultAccA amount sb : Nat)
    (hnone : ch.records stateAcc = none)
    (hfind : findPda onCurve stateTag userA = some (stateAccA, sb))
    (hsome : (chA.records stateAccA).isSome = true) :
    deposit onCurve ch user stateAcc vaultAcc amount = .error .VaultNotFound ∧
    withdraw onCurve ch user stateAcc vaultAcc amount = .error .VaultNotFound ∧
    closeOp onCurve ch user stateAcc vaultAcc = .error .VaultNotFound ∧
    initOp onCurve rentMin chA userA stateAccA vaultAccA
      = .error .AlreadyInitialized := by
  have hpv : paymentValidate onCurve ch user stateAcc vaultAcc
      = .error .VaultNotFound := by
    unfold paymentValidate; rw [hnone]
  refine ⟨?_, ?_, ?_, ?_⟩
  · unfold deposit; rw [hpv]
  · unfold withdraw; rw [hpv]
  · unfold closeOp; rw [hnone]
  · unfold initOp; rw [hfind]; simp [hsome]

/-- Claim C5: for an owner in the Active state (record present, bumps
matching), Withdraw of an amount strictly greater than the current vault
balance fails with `InsufficientFunds`, and the chain is unchanged (a
failed operation commits nothing). -/
theorem withdraw_insufficient_rejected (onCurve : Nat → Bool) (ch : Chain)
    (user stateAcc vaultAcc amount : Nat) (vs : VaultState)
    (hrec : ch.records stateAcc = some vs)
    (hs : createPda onCurve stateTag user vs.state_bump = some stateAcc)
    (hv : createPda onCurve vaultTag stateAcc vs.vault_bump = some vaultAcc)
    (hlt : ch.lamports vaultAcc < amount) :
    withdraw onCurve ch user stateAcc vaultAcc amount
      = .error .InsufficientFunds ∧
    applyResult ch (withdraw onCurve ch user stateAcc vaultAcc amount) = ch := by
  have hval := paymentValidate_eq_ok onCurve ch user stateAcc vaultAcc vs hrec hs hv
  have hw : withdraw onCurve ch user stateAcc vaultAcc amount
      = .error .InsufficientFunds := by
    unfold withdraw
    rw [hval]
    simp [hv, sysTransfer, hlt]
  exact ⟨hw, by rw [hw]; rfl⟩

/-- Claim C7: Deposit checks the destination (vault) balance for u64
overflow before adding: whenever the vault balance plus the amount leaves
the u64 range, the deposit fails with the arithmetic-overflow error and the
chain is unchanged, even though the caller could fund the amount. -/
theorem deposit_overflow_rejected (onCurve : Nat → Bool) (ch : Chain)
    (user stateAcc vaultAcc amount : Nat) (vs : VaultState)
    (hrec : ch.records stateAcc = some vs)
    (hs : createPda onCurve stateTag user vs.state_bump = some stateAcc)
    (hv : createPda onCurve vaultTag stateAcc vs.vault_bump = some vaultAcc)
    (hfunds : amount ≤ ch.lamports user)
    (hne : user ≠ vaultAcc)
    (hov : 2 ^ 64 ≤ ch.lamports vaultAcc + amount) :
    deposit onCurve ch user stateAcc vaultAcc amount
      = .error .ArithmeticOverflow ∧
    applyResult ch (deposit onCurve ch user stateAcc vaultAcc amount) = ch := by
  have hval := paymentValidate_eq_ok onCurve ch user stateAcc vaultAcc vs hrec hs hv
  have hd : deposit onCurve ch user stateAcc vaultAcc amount
      = .error .ArithmeticOverflow := by
    unfold deposit
    rw [hval]
    unfold sysTransfer
    rw [if_neg (by omega), if_pos]
    simp [Ne.symm hne]
    omega
  exact ⟨hd, by rw [hd]; rfl⟩

/-- Claim C8: Deposit and Withdraw, whether they succeed or fail, leave
every `VaultState` record unchanged (in particular `vault_bump` and
`state_bump` keep the values written at Initialize, at the same address). -/
theorem payment_preserves_records (onCurve : Nat → Bool) (ch : Chain)
    (user stateAcc vaultAcc amount a : Nat) :
    (applyResult ch (deposit onCurve ch user stateAcc vaultAcc amount)).records a
      = ch.records a ∧
    (applyResult ch (withdraw onCurve ch user stateAcc vaultAcc amount)).records a
      = ch.records a := by
  constructor
  · cases hres : deposit onCurve ch user stateAcc vaultAcc amount with
    | error e => rfl
    | ok ch1 =>
      obtain ⟨vs, -, ht⟩ := deposit_ok_inv onCurve ch user stateAcc vaultAcc
        amount ch1 hres
      show ch1.records a = ch.records a
      rw [sysTransfer_records ch user vaultAcc amount ch1 ht]
  · cases hres : withdraw onCurve ch user stateAcc vaultAcc amount with
    | error e => rfl
    | ok ch1 =>
      obtain ⟨vs, -, ht⟩ := withdraw_ok_inv onCurve ch user stateAcc vaultAcc
        amount ch1 hres
      show ch1.records a = ch.records a
      rw [sysTransfer_records ch vaultAcc user amount ch1 ht]

/-- Claim C10: for an owner in the Active state, Deposit(0) and Withdraw(0)
succeed as no-ops: no positive-amount precondition is enforced, and both
the vault balance and the caller's external balance are unchanged. -/
theorem zero_amount_payment_noop (onCurve : Nat → Bool) (ch : Chain)
    (user stateAcc vaultAcc : Nat) (vs : VaultState)
    (hrec : ch.records stateAcc = some vs)
    (hs : createPda onCurve stateTag user vs.state_bump = some stateAcc)
    (hv : createPda onCurve vaultTag stateAcc vs.vault_bump = some vaultAcc)
    (hbu : ch.lamports user < 2 ^ 64)
    (hbv : ch.lamports vaultAcc < 2 ^ 64) :
    (∃ ch1, deposit onCurve ch user stateAcc vaultAcc 0 = .ok ch1 ∧
      ∀ a, ch1.lamports a = ch.lamports a ∧ ch1.records a = ch.records a) ∧
    (∃ ch1, withdraw onCurve ch user stateAcc vaultAcc 0 = .ok ch1 ∧
      ∀ a, ch1.lamports a = ch.lamports a ∧ ch1.records a = ch.records a) := by
  have hval := paymentValidate_eq_ok onCurve ch user stateAcc vaultAcc vs hrec hs hv
  constructor
  · have ht : sysTransfer ch user vaultAcc 0
        = .ok (credit (debit ch user 0) vaultAcc 0) := by
      apply sysTransfer_eq_ok
      · exact Nat.zero_le _
      · simp only [debit_lamports, Nat.add_zero]
        split <;> omega
    refine ⟨credit (debit ch user 0) vaultAcc 0, ?_, ?_⟩
    · unfold deposit; rw [hval, ht]
    · intro a
      refine ⟨?_, rfl⟩
      simp only [credit_lamports, debit_lamports, Nat.add_zero, Nat.sub_zero]
      split_ifs <;> simp_all
  · have ht : sysTransfer ch vaultAcc user 0
        = .ok (credit (debit ch vaultAcc 0) user 0) := by
      apply sysTransfer_eq_ok
      · exact Nat.zero_le _
      · simp only [debit_lamports, Nat.add_zero]
        split <;> omega
    refine ⟨credit (debit ch vaultAcc 0) user 0, ?_, ?_⟩
    · unfold withdraw; rw [hval]; simp [hv, ht]
    · intro a
      refine ⟨?_, rfl⟩
      simp only [credit_lamports, debit_lamports, Nat.add_zero, Nat.sub_zero]
      split_ifs <;> simp_all

/-- Claim C4: for an owner in the Active state and an amount the caller can
fund (and that fits the vault's u64 balance), a successful Deposit
increases the vault balance by exactly `amount`, decreases the caller's
external balance by exactly `amount`, conserves the external-plus-vault
total, and touches no other balance. -/
theorem deposit_conserves (onCurve : Nat → Bool) (ch : Chain)
    (user stateAcc vaultAcc amount : Nat) (vs : VaultState)
    (hrec : ch.records stateAcc = some vs)
    (hs : createPda onCurve stateTag user vs.state_bump = some stateAcc)
    (hv : createPda onCurve vaultTag stateAcc vs.vault_bump = some vaultAcc)
    (hfunds : amount ≤ ch.lamports user)
    (hov : ch.lamports vaultAcc + amount < 2 ^ 64)
    (hne : user ≠ vaultAcc) :
    ∃ ch1, deposit onCurve ch user stateAcc vaultAcc amount = .ok ch1 ∧
      ch1.lamports vaultAcc = ch.lamports vaultAcc + amount ∧
      ch1.lamports user = ch.lamports user - amount ∧
      ch1.lamports user + ch1.lamports vaultAcc
        = ch.lamports user + ch.lamports vaultAcc ∧
      (∀ a, a ≠ user → a ≠ vaultAcc → ch1.lamports a = ch.lamports a) := by
  have hval := paymentValidate_eq_ok onCurve ch user stateAcc vaultAcc vs hrec hs hv
  have hne' : vaultAcc ≠ user := Ne.symm hne
  have ht : sysTransfer ch user vaultAcc amount
      = .ok (credit (debit ch user amount) vaultAcc amount) := by
    apply sysTransfer_eq_ok
    · exact hfunds
    · simp only [debit_lamports, if_neg hne']
      omega
  refine ⟨credit (debit ch user amount) vaultAcc amount, ?_, ?_, ?_, ?_, ?_⟩
  · unfold deposit; rw [hval, ht]
  · simp [hne']
  · simp [hne]
  · simp only [credit_lamports, debit_lamports]
    simp [hne, hne']
    omega
  · intro a hau hav
    simp [hau, hav]

/-- Claim C1: for an owner in the Active state, Close transfers the entire
current vault balance (not a caller-specified amount) to the caller, then
deletes the `VaultState` record and returns its storage-rent deposit to the
caller; afterwards the record no longer exists at the owner's state
address, and no other balance or record is touched. -/
theorem close_sweeps_and_deletes (onCurve : Nat → Bool) (ch : Chain)
    (user stateAcc vaultAcc : Nat) (vs : VaultState)
    (hrec : ch.records stateAcc = some vs)
    (hs : createPda onCurve stateTag user vs.state_bump = some stateAcc)
    (hv : createPda onCurve vaultTag stateAcc vs.vault_bump = some vaultAcc)
    (hne1 : user ≠ vaultAcc) (hne2 : user ≠ stateAcc) (hne3 : vaultAcc ≠ stateAcc)
    (hov : ch.lamports user + ch.lamports vaultAcc + ch.lamports stateAcc
      < 2 ^ 64) :
    ∃ ch1, closeOp onCurve ch user stateAcc vaultAcc = .ok ch1 ∧
      ch1.records stateAcc = none ∧
      ch1.lamports user
        = ch.lamports user + ch.lamports vaultAcc + ch.lamports stateAcc ∧
      ch1.lamports vaultAcc = 0 ∧
      ch1.lamports stateAcc = 0 ∧
      (∀ a, a ≠ user → a ≠ vaultAcc → a ≠ stateAcc →
        ch1.lamports a = ch.lamports a ∧ ch1.records a = ch.records a) := by
  have hne1' : vaultAcc ≠ user := Ne.symm hne1
  have hne2' : stateAcc ≠ user := Ne.symm hne2
  have hne3' : stateAcc ≠ vaultAcc := Ne.symm hne3
  set M := credit (debit ch vaultAcc (ch.lamports vaultAcc)) user
    (ch.lamports vaultAcc) with hM
  have ht : sysTransfer ch vaultAcc user (ch.lamports vaultAcc) = .ok M := by
    apply sysTransfer_eq_ok
    · exact Nat.le_refl _
    · simp only [debit_lamports, if_neg hne1]
      omega
  have hmu : M.lamports user = ch.lamports user + ch.lamports vaultAcc := by
    simp [hM, hne1]
  have hms : M.lamports stateAcc = ch.lamports stateAcc := by
    simp [hM, hne2', hne3']
  have hmv : M.lamports vaultAcc = 0 := by
    simp [hM, hne1']
  have hmr : M.records = ch.records := by
    rw [hM]; rfl
  refine ⟨{ lamports := fupdate (fupdate M.lamports user (M.lamports user + M.lamports stateAcc)) stateAcc 0, records := fupdate M.records stateAcc none }, ?_, ?_, ?_, ?_, ?_, ?_⟩
  · unfold closeOp
    rw [hrec]
    simp only [hs, hv, ht, ne_eq, not_true_eq_false, if_false, ite_false]
    rw [if_neg (by rw [hmu, hms]; omega)]
  · simp [fupdate]
  · simp only [fupdate_of_ne _ _ _ hne2, fupdate_self, hmu, hms]
  · simp only [fupdate_of_ne _ _ _ hne3, fupdate_of_ne _ _ _ hne1', hmv]
  · simp [fupdate]
  · intro a hau hav has
    constructor
    · simp only [fupdate_of_ne _ _ _ has, fupdate_of_ne _ _ _ hau, hM]
      simp [hau, hav]
    · simp only [fupdate_of_ne _ _ _ has, hmr]

/-- Claim C6: Initialize allocates the `VaultState` record at its derived
(canonical) address, transfers exactly the storage-rent minimum for the
record's size from the caller to the record (plus the handler's separate
rent-minimum transfer into the dataless vault account), writes
`vault_bump`/`state_bump` from the derivation results, and leaves the
record rent-exempt. -/
theorem init_creates_rent_exempt_record (onCurve : Nat → Bool)
    (rentMin : Nat → Nat) (ch : Chain) (user stateAcc vaultAcc sb vb : Nat)
    (hsf : findPda onCurve stateTag user = some (stateAcc, sb))
    (hvf : findPda onCurve vaultTag stateAcc = some (vaultAcc, vb))
    (hnone : ch.records stateAcc = none)
    (hzero : ch.lamports stateAcc = 0)
    (hfunds : rentMin INIT_SPACE + rentMin 0 ≤ ch.lamports user)
    (hne1 : user ≠ stateAcc) (hne2 : user ≠ vaultAcc) (hne3 : stateAcc ≠ vaultAcc)
    (hov1 : rentMin INIT_SPACE < 2 ^ 64)
    (hov2 : ch.lamports vaultAcc + rentMin 0 < 2 ^ 64) :
    ∃ ch1, initOp onCurve rentMin ch user stateAcc vaultAcc = .ok ch1 ∧
      ch1.records stateAcc = some ⟨vb, sb⟩ ∧
      ch1.lamports stateAcc = rentMin INIT_SPACE ∧
      rentMin INIT_SPACE ≤ ch1.lamports stateAcc ∧
      ch1.lamports vaultAcc = ch.lamports vaultAcc + rentMin 0 ∧
      ch1.lamports user
        = ch.lamports user - rentMin INIT_SPACE - rentMin 0 ∧
      (∀ a, a ≠ user → a ≠ stateAcc → a ≠ vaultAcc →
        ch1.lamports a = ch.lamports a ∧ ch1.records a = ch.records a) := by
  have hne1' : stateAcc ≠ user := Ne.symm hne1
  have hne2' : vaultAcc ≠ user := Ne.symm hne2
  have hne3' : vaultAcc ≠ stateAcc := Ne.symm hne3
  have hamt : rentMin INIT_SPACE - ch.lamports stateAcc = rentMin INIT_SPACE := by
    simp [hzero]
  have ht1 : sysTransfer ch user stateAcc
      (rentMin INIT_SPACE - ch.lamports stateAcc)
      = .ok (credit (debit ch user (rentMin INIT_SPACE)) stateAcc
          (rentMin INIT_SPACE)) := by
    rw [hamt]
    apply sysTransfer_eq_ok
    · omega
    · simp only [debit_lamports, if_neg hne1']
      omega
  set chmid := credit (debit ch user (rentMin INIT_SPACE)) stateAcc
    (rentMin INIT_SPACE) with hchmid
  set chA : Chain :=
    { chmid with records := fupdate chmid.records stateAcc (some ⟨0, 0⟩) }
    with hchA
  have hAu : chA.lamports user = ch.lamports user - rentMin INIT_SPACE := by
    simp [hchA, hchmid, hne1]
  have hAv : chA.lamports vaultAcc = ch.lamports vaultAcc := by
    simp [hchA, hchmid, hne2', hne3']
  have hAs : chA.lamports stateAcc = rentMin INIT_SPACE := by
    simp [hchA, hchmid, hne1', hzero]
  set ch2 := credit (debit chA user (rentMin 0)) vaultAcc (rentMin 0) with hch2
  have ht2 : sysTransfer chA user vaultAcc (rentMin 0) = .ok ch2 := by
    apply sysTransfer_eq_ok
    · rw [hAu]; omega
    · simp only [debit_lamports, if_neg hne2']
      rw [hAv]; omega
  have h2s : ch2.lamports stateAcc = rentMin INIT_SPACE := by
    rw [hch2]
    simp [hchmid, hne3, hne1', hzero]
  have h2v : ch2.lamports vaultAcc = ch.lamports vaultAcc + rentMin 0 := by
    rw [hch2]
    simp [hchmid, hne2', hne3']
  have h2u : ch2.lamports user
      = ch.lamports user - rentMin INIT_SPACE - rentMin 0 := by
    rw [hch2]
    simp [hchmid, hne2, hne1]
  refine ⟨{ ch2 with records := fupdate ch2.records stateAcc (some ⟨vb, sb⟩) },
    ?_, ?_, ?_, ?_, ?_, ?_, ?_⟩
  · unfold initOp
    rw [hsf]
    simp only [ite_not, if_pos rfl, hnone, Option.isSome_none,
      Bool.false_eq_true, if_false, ht1, hvf, ht2]
    simp
  · simp [fupdate]
  · exact h2s
  · exact h2s.symm.le
  · exact h2v
  · exact h2u
  · intro a hau has hav
    constructor
    · show ch2.lamports a = ch.lamports a
      rw [hch2]
      simp [hchmid, hau, has, hav]
    · show fupdate ch2.records stateAcc (some ⟨vb, sb⟩) a = ch.records a
      rw [fupdate_of_ne _ _ _ has, hch2]
      show fupdate chmid.records stateAcc (some ⟨0, 0⟩) a = ch.records a
      rw [fupdate_of_ne _ _ _ has]
      rfl

/-- Claim C9: every entry point derives the state address from the signing
caller's own key — the interface carries no separate owner parameter — so
for distinct identities U and V (U a wallet key, hence on the curve), any
operation signed by U, with any supplied accounts and amount, leaves the
vault balance and `VaultState` record belonging to V completely unchanged:
cross-owner access is impossible. -/
theorem cross_owner_isolation (onCurve : Nat → Bool) (rentMin : Nat → Nat)
    (ch : Chain) (U V stateAcc vaultAcc amount sV sbV vV vbV : Nat)
    (hcurve : onCurve U = true)
    (hUV : U ≠ V)
    (hsV : findPda onCurve stateTag V = some (sV, sbV))
    (hvV : findPda onCurve vaultTag sV = some (vV, vbV)) :
    untouched ch sV vV (initOp onCurve rentMin ch U stateAcc vaultAcc) ∧
    untouched ch sV vV (deposit onCurve ch U stateAcc vaultAcc amount) ∧
    untouched ch sV vV (withdraw onCurve ch U stateAcc vaultAcc amount) ∧
    untouched ch sV vV (closeOp onCurve ch U stateAcc vaultAcc) := by
  obtain ⟨hsVeq, hsVoff⟩ := findPda_spec onCurve stateTag V sV sbV hsV
  obtain ⟨hvVeq, hvVoff⟩ := findPda_spec onCurve vaultTag sV vV vbV hvV
  have hUsV : sV ≠ U := by
    intro h
    rw [← h, hsVoff] at hcurve
    exact Bool.noConfusion hcurve
  have hUvV : vV ≠ U := by
    intro h
    rw [← h, hvVoff] at hcurve
    exact Bool.noConfusion hcurve
  have hstate_ne : ∀ b, sV ≠ pdaHash stateTag U b := by
    intro b h
    rw [hsVeq] at h
    obtain ⟨-, h2, -⟩ := pdaHash_inj.mp h
    exact hUV h2.symm
  have hstate_ne_vV : ∀ b, vV ≠ pdaHash stateTag U b := by
    intro b h
    rw [hvVeq] at h
    obtain ⟨h1, -, -⟩ := pdaHash_inj.mp h
    exact absurd h1 (by decide)
  have hvault_ne_sV : ∀ s b, sV ≠ pdaHash vaultTag s b := by
    intro s b h
    rw [hsVeq] at h
    obtain ⟨h1, -, -⟩ := pdaHash_inj.mp h
    exact absurd h1 (by decide)
  have hvault_ne_vV : ∀ s b, s ≠ sV → vV ≠ pdaHash vaultTag s b := by
    intro s b hne h
    rw [hvVeq] at h
    obtain ⟨-, h2, -⟩ := pdaHash_inj.mp h
    exact hne h2.symm
  refine ⟨?_, ?_, ?_, ?_⟩
  · -- Initialize signed by U
    cases hres : initOp onCurve rentMin ch U stateAcc vaultAcc with
    | error e => exact ⟨rfl, rfl, rfl⟩
    | ok ch1 =>
      obtain ⟨sb, vb, chmid, ch2, hsf, hvf, -, ht1, ht2, hlam, hrecs⟩ :=
        initOp_ok_inv onCurve rentMin ch U stateAcc vaultAcc ch1 hres
      obtain ⟨hsEq, -⟩ := findPda_spec onCurve stateTag U stateAcc sb hsf
      obtain ⟨hvEq, -⟩ := findPda_spec onCurve vaultTag stateAcc vaultAcc vb hvf
      have h5 : sV ≠ stateAcc := by rw [hsEq]; exact hstate_ne sb
      have h6 : vV ≠ stateAcc := by rw [hsEq]; exact hstate_ne_vV sb
      have h7 : sV ≠ vaultAcc := by rw [hvEq]; exact hvault_ne_sV stateAcc vb
      have h8 : vV ≠ vaultAcc := by
        rw [hvEq]
        exact hvault_ne_vV stateAcc vb (fun hh => h5 (by rw [hh]))
      obtain ⟨hmid, -⟩ := sysTransfer_inv ch U stateAcc
        (rentMin INIT_SPACE - ch.lamports stateAcc) chmid ht1
      obtain ⟨h2eq, -⟩ := sysTransfer_inv _ U vaultAcc (rentMin 0) ch2 ht2
      subst hmid; subst h2eq
      refine ⟨?_, ?_, ?_⟩
      · show ch1.records sV = ch.records sV
        rw [hrecs, fupdate_of_ne _ _ _ h5]
        show fupdate (credit (debit ch U (rentMin INIT_SPACE - ch.lamports stateAcc)) stateAcc (rentMin INIT_SPACE - ch.lamports stateAcc)).records stateAcc (some ⟨0, 0⟩) sV = ch.records sV
        rw [fupdate_of_ne _ _ _ h5]
        rfl
      · show ch1.lamports sV = ch.lamports sV
        rw [hlam]
        simp [hUsV, h5, h7]
      · show ch1.lamports vV = ch.lamports vV
        rw [hlam]
        simp [hUvV, h6, h8]
  · -- Deposit signed by U
    cases hres : deposit onCurve ch U stateAcc vaultAcc amount with
    | error e => exact ⟨rfl, rfl, rfl⟩
    | ok ch1 =>
      obtain ⟨vs, hval, ht⟩ := deposit_ok_inv onCurve ch U stateAcc vaultAcc
        amount ch1 hres
      obtain ⟨-, hsC, hvC⟩ := paymentValidate_inv onCurve ch U stateAcc
        vaultAcc vs hval
      obtain ⟨hsEq, -⟩ := createPda_spec onCurve stateTag U vs.state_bump
        stateAcc hsC
      obtain ⟨hvEq, -⟩ := createPda_spec onCurve vaultTag stateAcc
        vs.vault_bump vaultAcc hvC
      have h5 : sV ≠ stateAcc := by rw [hsEq]; exact hstate_ne vs.state_bump
      have h7 : sV ≠ vaultAcc := by
        rw [hvEq]; exact hvault_ne_sV stateAcc vs.vault_bump
      have h6 : vV ≠ stateAcc := by
        rw [hsEq]; exact hstate_ne_vV vs.state_bump
      have h8 : vV ≠ vaultAcc := by
        rw [hvEq]
        exact hvault_ne_vV stateAcc vs.vault_bump (fun hh => h5 (by rw [hh]))
      obtain ⟨hch1, -⟩ := sysTransfer_inv ch U vaultAcc amount ch1 ht
      subst hch1
      exact ⟨rfl, by simp [applyResult, hUsV, h7], by simp [applyResult, hUvV, h8]⟩
  · -- Withdraw signed by U
    cases hres : withdraw onCurve ch U stateAcc vaultAcc amount with
    | error e => exact ⟨rfl, rfl, rfl⟩
    | ok ch1 =>
      obtain ⟨vs, hval, ht⟩ := withdraw_ok_inv onCurve ch U stateAcc vaultAcc
        amount ch1 hres
      obtain ⟨-, hsC, hvC⟩ := paymentValidate_inv onCurve ch U stateAcc
        vaultAcc vs hval
      obtain ⟨hsEq, -⟩ := createPda_spec onCurve stateTag U vs.state_bump
        stateAcc hsC
      obtain ⟨hvEq, -⟩ := createPda_spec onCurve vaultTag stateAcc
        vs.vault_bump vaultAcc hvC
      have h5 : sV ≠ stateAcc := by rw [hsEq]; exact hstate_ne vs.state_bump
      have h7 : sV ≠ vaultAcc := by
        rw [hvEq]; exact hvault_ne_sV stateAcc vs.vault_bump
      have h8 : vV ≠ vaultAcc := by
        rw [hvEq]
        exact hvault_ne_vV stateAcc vs.vault_bump (fun hh => h5 (by rw [hh]))
      obtain ⟨hch1, -⟩ := sysTransfer_inv ch vaultAcc U amount ch1 ht
      subst hch1
      exact ⟨rfl, by simp [applyResult, hUsV, h7], by simp [applyResult, hUvV, h8]⟩
  · -- Close signed by U
    cases hres : closeOp onCurve ch U stateAcc vaultAcc with
    | error e => exact ⟨rfl, rfl, rfl⟩
    | ok ch1 =>
      obtain ⟨vs, chmid, -, hvC, hsC, ht, hlam, hrecs⟩ :=
        closeOp_ok_inv onCurve ch U stateAcc vaultAcc ch1 hres
      obtain ⟨hsEq, -⟩ := createPda_spec onCurve stateTag U vs.state_bump
        stateAcc hsC
      obtain ⟨hvEq, -⟩ := createPda_spec onCurve vaultTag stateAcc
        vs.vault_bump vaultAcc hvC
      have h5 : sV ≠ stateAcc := by rw [hsEq]; exact hstate_ne vs.state_bump
      have h6 : vV ≠ stateAcc := by
        rw [hsEq]; exact hstate_ne_vV vs.state_bump
      have h7 : sV ≠ vaultAcc := by
        rw [hvEq]; exact hvault_ne_sV stateAcc vs.vault_bump
      have h8 : vV ≠ vaultAcc := by
        rw [hvEq]
        exact hvault_ne_vV stateAcc vs.vault_bump (fun hh => h5 (by rw [hh]))
      obtain ⟨hmid, -⟩ := sysTransfer_inv ch vaultAcc U (ch.lamports vaultAcc)
        chmid ht
      subst hmid
      refine ⟨?_, ?_, ?_⟩
      · show ch1.records sV = ch.records sV
        rw [hrecs, fupdate_of_ne _ _ _ h5]
        rfl
      · show ch1.lamports sV = ch.lamports sV
        rw [hlam, fupdate_of_ne _ _ _ h5, fupdate_of_ne _ _ _ hUsV]
        simp [hUsV, h7]
      · show ch1.lamports vV = ch.lamports vV
        rw [hlam, fupdate_of_ne _ _ _ h6, fupdate_of_ne _ _ _ hUvV]
        simp [hUvV, h8]

/-! ## Witnesses: the claim theorems evaluated at concrete inputs -/

/-- Concrete witness for claim C1: in the fixture world, owner 7 closes the
vault holding 600 lamports (plus 110 rent lamports on the record) and
receives everything; the record is gone. -/
theorem close_sweeps_and_deletes_witness :
    ∃ ch1, closeOp ocW chW 7 saW vaW = .ok ch1 ∧
      ch1.records saW = none ∧
      ch1.lamports 7 = chW.lamports 7 + chW.lamports vaW + chW.lamports saW ∧
      ch1.lamports vaW = 0 ∧
      ch1.lamports saW = 0 ∧
      (∀ a, a ≠ 7 → a ≠ vaW → a ≠ saW →
        ch1.lamports a = chW.lamports a ∧ ch1.records a = chW.records a) :=
  close_sweeps_and_deletes ocW chW 7 saW vaW vsW (by decide) (by decide)
    (by decide) (by decide) (by decide) (by decide) (by decide)

/-- Concrete witness for claim C2: supplying `999` as the vault account
(which is not the derived vault address) makes all three operations fail
with `BumpMismatch` and commit nothing. -/
theorem ops_reject_bump_mismatch_witness :
    deposit ocW chW 7 saW 999 5 = .error .BumpMismatch ∧
    withdraw ocW chW 7 saW 999 5 = .error .BumpMismatch ∧
    closeOp ocW chW 7 saW 999 = .error .BumpMismatch ∧
    applyResult chW (deposit ocW chW 7 saW 999 5) = chW ∧
    applyResult chW (withdraw ocW chW 7 saW 999 5) = chW ∧
    applyResult chW (closeOp ocW chW 7 saW 999) = chW :=
  ops_reject_bump_mismatch ocW chW 7 saW 999 5 vsW (by decide)
    (Or.inr (by decide))

/-- Concrete witness for claim C3: with no record, Deposit/Withdraw/Close
fail with `VaultNotFound`; with owner 7 Active, Initialize fails with
`AlreadyInitialized`. -/
theorem vault_state_machine_witness :
    deposit ocW chW0 7 0 0 5 = .error .VaultNotFound ∧
    withdraw ocW chW0 7 0 0 5 = .error .VaultNotFound ∧
    closeOp ocW chW0 7 0 0 = .error .VaultNotFound ∧
    initOp ocW rmW chW 7 saW vaW = .error .AlreadyInitialized :=
  vault_state_machine ocW rmW chW0 chW 7 0 0 7 saW vaW 5 255 (by decide)
    (by decide) (by decide)

/-- Concrete witness for claim C4: owner 7 deposits 1000 lamports; the
vault goes from 600 to 1600, the external balance from 100000 to 99000,
and the total is conserved. -/
theorem deposit_conserves_witness :
    ∃ ch1, deposit ocW chW 7 saW vaW 1000 = .ok ch1 ∧
      ch1.lamports vaW = chW.lamports vaW + 1000 ∧
      ch1.lamports 7 = chW.lamports 7 - 1000 ∧
      ch1.lamports 7 + ch1.lamports vaW = chW.lamports 7 + chW.lamports vaW ∧
      (∀ a, a ≠ 7 → a ≠ vaW → ch1.lamports a = chW.lamports a) :=
  deposit_conserves ocW chW 7 saW vaW 1000 vsW (by decide) (by decide)
    (by decide) (by decide) (by decide) (by decide)

/-- Concrete witness for claim C5: withdrawing 601 from a vault holding 600
fails with `InsufficientFunds` and commits nothing. -/
theorem withdraw_insufficient_rejected_witness :
    withdraw ocW chW 7 saW vaW 601 = .error .InsufficientFunds ∧
    applyResult chW (withdraw ocW chW 7 saW vaW 601) = chW :=
  withdraw_insufficient_rejected ocW chW 7 saW vaW 601 vsW (by decide)
    (by decide) (by decide) (by decide)

/-- Concrete witness for claim C6: owner 7 initializes a fresh vault; the
record appears at the canonical state address with both bumps 255, funded
with exactly the rent minimum for its 10 bytes, and the dataless vault gets
the rent minimum for 0 bytes. -/
theorem init_creates_rent_exempt_record_witness :
    ∃ ch1, initOp ocW rmW chW0 7 saW vaW = .ok ch1 ∧
      ch1.records saW = some ⟨255, 255⟩ ∧
      ch1.lamports saW = rmW INIT_SPACE ∧
      rmW INIT_SPACE ≤ ch1.lamports saW ∧
      ch1.lamports vaW = chW0.lamports vaW + rmW 0 ∧
      ch1.lamports 7 = chW0.lamports 7 - rmW INIT_SPACE - rmW 0 ∧
      (∀ a, a ≠ 7 → a ≠ saW → a ≠ vaW →
        ch1.lamports a = chW0.lamports a ∧ ch1.records a = chW0.records a) :=
  init_creates_rent_exempt_record ocW rmW chW0 7 saW vaW 255 255 (by decide)
    (by decide) (by decide) (by decide) (by decide) (by decide) (by decide)
    (by decide) (by decide) (by decide)

/-- Concrete witness for claim C7: depositing `2 ^ 64 - 600` into a vault
holding 600 would overflow u64, so the deposit fails with the
arithmetic-overflow error even though the caller can fund it. -/
theorem deposit_overflow_rejected_witness :
    deposit ocW chBig 7 saW vaW (2 ^ 64 - 600) = .error .ArithmeticOverflow ∧
    applyResult chBig (deposit ocW chBig 7 saW vaW (2 ^ 64 - 600)) = chBig :=
  deposit_overflow_rejected ocW chBig 7 saW vaW (2 ^ 64 - 600) vsW (by decide)
    (by decide) (by decide) (by decide) (by decide) (by decide)

/-- Concrete witness for claim C9: with wallets 7 and 8 on the curve, all
four operations signed by 7 (with 7's accounts supplied) leave owner 8's
canonical state record and vault balance untouched. -/
theorem cross_owner_isolation_witness :
    untouched chW sV8 vV8 (initOp ocW2 rmW chW 7 saW vaW) ∧
    untouched chW sV8 vV8 (deposit ocW2 chW 7 saW vaW 5) ∧
    untouched chW sV8 vV8 (withdraw ocW2 chW 7 saW vaW 5) ∧
    untouched chW sV8 vV8 (closeOp ocW2 chW 7 saW vaW) :=
  cross_owner_isolation ocW2 rmW chW 7 8 saW vaW 5 sV8 255 vV8 255 (by decide)
    (by decide) (by decide) (by decide)

/-- Concrete witness for claim C10: Deposit(0) and Withdraw(0) by owner 7
succeed and change no balance and no record. -/
theorem zero_amount_payment_noop_witness :
    (∃ ch1, deposit ocW chW 7 saW vaW 0 = .ok ch1 ∧
      ∀ a, ch1.lamports a = chW.lamports a ∧ ch1.records a = chW.records a) ∧
    (∃ ch1, withdraw ocW chW 7 saW vaW 0 = .ok ch1 ∧
      ∀ a, ch1.lamports a = chW.lamports a ∧ ch1.records a = chW.records a) :=
  zero_amount_payment_noop ocW chW 7 saW vaW vsW (by decide) (by decide)
    (by decide) (by decide) (by decide)

end VaultModel
